import Mathlib

/-!
Verification of the fixed-size thread-pool executor in
`src/file_tree/utils.py` (`FixedThreadPoolExecutor` and `ThreadedWorker`).

The executor state is embedded shallowly: every instance attribute set by
`__init__` (lines 57-80) becomes a field of `ExecState`.  The standard-library
`queue.Queue` used for `self._tasks` is embedded by its documented semantics:
`put` appends an item and increments `unfinished_tasks`, `get` pops the head
(raising `Empty` after the timeout when the queue is empty), `task_done`
decrements `unfinished_tasks`, and `join` returns exactly when
`unfinished_tasks` is zero.  A submitted callable together with its captured
arguments is embedded by its outcome: the value it returns or the exception it
raises when some worker finally calls it.  Blocking operations return a
`PyResult`, whose `blocked` constructor models a call that never returns in the
modelled schedule.
-/

namespace FileTree

/-- Exceptions that appear in the modelled code paths: the `AttributeError`
raised by `stop()`'s access to the missing `run_event` attribute, the
`TypeError` raised by iterating `self._workers` once it is `None`, and
arbitrary exceptions raised by submitted callables (tagged by a code). -/
inductive PyErr where
  | attributeError
  | typeError
  | valueError (code : Nat)
deriving DecidableEq, Repr

/-- Result of calling a submitted callable with its captured arguments:
either it returns a value or it raises an exception. -/
inductive Outcome (α : Type) where
  | ok (v : α)
  | raised (e : PyErr)
deriving DecidableEq, Repr

/-- Result of an executor operation: a normal return, a raised exception, or a
call that blocks forever in the modelled schedule (e.g. `Queue.join` with a
nonzero pending count and no worker left to make progress). -/
inductive PyResult (α : Type) where
  | ok (v : α)
  | raised (e : PyErr)
  | blocked
deriving DecidableEq, Repr

/-- An entry of the `self._tasks` queue: either a real task tuple
`(id, func, args, kwargs)` — with the callable-and-arguments embedded by its
outcome — or the `_CYANIDE` sentinel enqueued by `close()` (line 105). -/
inductive QItem (α : Type) where
  | task (id : Nat) (func : Outcome α)
  | cyanide
deriving DecidableEq, Repr

/-- A `ThreadedWorker` (lines 214-234): `index` is its diagnostic identity,
`alive` is `Thread.is_alive()`, `keyboard_interrupted` the flag set by
`terminate()`.  Workers are started at construction, so `alive` starts true. -/
structure Worker where
  index : Nat
  alive : Bool
  keyboard_interrupted : Bool
deriving DecidableEq, Repr

/-- The instance attributes a `FixedThreadPoolExecutor` carries (lines 64-80).
`tasksQ` is the contents of the `queue.Queue` in FIFO order (head = next get);
`unfinished` is its `unfinished_tasks` counter; `run_event_set` is whether the
shared `threading.Event` is set; `workers` is `self._workers`, which `close()`
reassigns to `None` (hence the `Option`).  The `self._lock` mutex guards only
console output and carries no data, so it has no field. -/
structure ExecState (α : Type) where
  size : Nat
  timeout : Nat
  print_exceptions : Bool
  task_count : Nat
  returnsMap : List (Nat × α)
  exceptionsMap : List (Nat × PyErr)
  id_creator : Nat
  tasksQ : List (QItem α)
  unfinished : Nat
  run_event_set : Bool
  workers : Option (List Worker)
deriving DecidableEq, Repr

namespace FixedThreadPoolExecutor

variable {α β : Type}

/-- `Queue.put(item)` on the unbounded `self._tasks`: appends the item and
increments `unfinished_tasks` (never blocks or raises on an unbounded queue,
regardless of the timeout argument). -/
def qput (s : ExecState α) (item : QItem α) : ExecState α :=
  { s with tasksQ := s.tasksQ ++ [item], unfinished := s.unfinished + 1 }

/-- `Queue.task_done()`: decrements `unfinished_tasks`. -/
def task_done (s : ExecState α) : ExecState α :=
  { s with unfinished := s.unfinished - 1 }

/-- `__init__(size, timeout, print_exceptions)` (lines 57-80): zeroed counters,
empty result maps, a fresh id counter, an empty queue, an unset run event, and
`size` workers, each alive (started) and not interrupted. -/
def initExec (size : Nat) (timeout : Nat) (print_exceptions : Bool) :
    ExecState α :=
  { size := size
    timeout := timeout
    print_exceptions := print_exceptions
    task_count := 0
    returnsMap := []
    exceptionsMap := []
    id_creator := 0
    tasksQ := []
    unfinished := 0
    run_event_set := false
    workers := some ((List.range size).map fun i =>
      { index := i, alive := true, keyboard_interrupted := false }) }

/-- `submit(func, *args, **kwargs)` (lines 82-91): increment `task_count`,
then `put((next(self._id_creator), func, args, kwargs))`.  The put on the
unbounded queue always succeeds, so `submit` is a total function. -/
def submit (s : ExecState α) (func : Outcome α) : ExecState α :=
  let s1 := { s with task_count := s.task_count + 1 }
  qput { s1 with id_creator := s1.id_creator + 1 } (QItem.task s1.id_creator func)

/-- `_execute_task(id, func, args, kwargs)` (lines 191-203): run the callable;
on success store the value under `id` in `self._returns`, on an exception store
it under `id` in `self._exceptions` (optionally printing it, which has no state
effect); in both cases finish with `self._tasks.task_done()`. -/
def execute_task (s : ExecState α) (id : Nat) (func : Outcome α) : ExecState α :=
  task_done (match func with
    | Outcome.ok v => { s with returnsMap := s.returnsMap ++ [(id, v)] }
    | Outcome.raised e => { s with exceptionsMap := s.exceptionsMap ++ [(id, e)] })

/-- `_execute_next_task()` (lines 177-189), returning the Python value of the
method call (`None`, `False` or `True`) together with the updated state:
on an empty queue `get` raises `Empty` after the timeout, the handler is
`pass`, and the method falls off the end returning `None`; on the `_CYANIDE`
sentinel it returns `False` without `task_done`; on a real task it executes it
and returns `True`. -/
def execute_next_task (s : ExecState α) : Option Bool × ExecState α :=
  match s.tasksQ with
  | [] => (none, s)
  | QItem.cyanide :: rest => (some false, { s with tasksQ := rest })
  | QItem.task id func :: rest =>
      (some true, execute_task { s with tasksQ := rest } id func)

/-- Python truthiness of the `None`/`False`/`True` value returned by
`_execute_next_task`: `None` is falsy. -/
def pyTruthy : Option Bool → Bool
  | none => false
  | some b => b

/-- The loop-exit condition of `ThreadedWorker.run` (lines 231-234):
`not self.executor._execute_next_task() or self.keyboard_interrupted or
self.run_event.is_set()` — true means the worker breaks out of its loop and
the thread terminates (state `STOPPED`). -/
def runBreaks (r : Option Bool) (keyboard_interrupted : Bool)
    (run_event_set : Bool) : Bool :=
  !(pyTruthy r) || keyboard_interrupted || run_event_set

/-- One iteration of a worker's `run` loop against the executor state: perform
`_execute_next_task` and report whether the worker breaks (terminates). -/
def workerStep (s : ExecState α) (w : Worker) : ExecState α × Bool :=
  let (r, s') := execute_next_task s
  (s', runBreaks r w.keyboard_interrupted s'.run_event_set)

/-- The keys of a dict in Python's `sorted(...)` order: ascending. -/
def sortedKeys {β : Type} (m : List (Nat × β)) : List Nat :=
  List.insertionSort (fun a b => a ≤ b) (m.map Prod.fst)

/-- The list comprehension `[m[k] for k in sorted(m)]` shared by the `returns`
and `exceptions` properties (lines 141-155): the stored values read back in
ascending key order.  Each key comes from the dict, so each lookup succeeds. -/
def sortedValues {β : Type} (m : List (Nat × β)) : List β :=
  (sortedKeys m).filterMap (fun k => List.lookup k m)

/-- The `returns` property (lines 141-147). -/
def returns (s : ExecState α) : List α := sortedValues s.returnsMap

/-- The `exceptions` property (lines 149-155). -/
def exceptions (s : ExecState α) : List PyErr := sortedValues s.exceptionsMap

/-- `raise_first()` (lines 157-169): read the `exceptions` view; if it is
nonempty raise its first element, otherwise return `None`. -/
def raise_first (s : ExecState α) : Outcome Unit :=
  match exceptions s with
  | [] => Outcome.ok ()
  | e :: _ => Outcome.raised e

/-- The `is_alive` property (lines 129-139): iterate `self._workers`, return
true at the first live worker, false after the loop.  When `close()` has set
`self._workers = None`, the `for` statement raises
`TypeError: 'NoneType' object is not iterable`. -/
def is_alive (s : ExecState α) : PyResult Bool :=
  match s.workers with
  | none => PyResult.raised PyErr.typeError
  | some ws => PyResult.ok (ws.any fun w => w.alive)

/-- `drain()` (lines 122-127), i.e. `self._tasks.join()`: returns exactly when
`unfinished_tasks` is zero; with pending work outstanding and no concurrent
worker progress modelled, the call blocks. -/
def drain (s : ExecState α) : PyResult (ExecState α) :=
  if s.unfinished = 0 then PyResult.ok s else PyResult.blocked

/-- The `while self.is_alive: self._tasks.put(_CYANIDE)` loop of `close()`
(lines 104-105), run to completion under the minimal schedule: each `put`
increments `unfinished_tasks` and the sentinel is dequeued by one live worker,
whose `_execute_next_task` returns `False` (no `task_done`), so the worker
breaks and its thread dies.  One put-and-die round per live worker; dead
workers stay dead.  Returns the state and the worker list after the loop. -/
def closeLoop (s : ExecState α) : List Worker → ExecState α × List Worker
  | [] => (s, [])
  | w :: ws =>
      if w.alive then
        let (s', ws') := closeLoop { s with unfinished := s.unfinished + 1 } ws
        (s', { w with alive := false } :: ws')
      else
        let (s', ws') := closeLoop s ws
        (s', w :: ws')

/-- `close()` (lines 93-107): `drain()`, then the cyanide loop until
`is_alive` is false, then `self._workers = None`.  When `self._workers` is
already `None` the `is_alive` check itself raises `TypeError`. -/
def close (s : ExecState α) : PyResult (ExecState α) :=
  match drain s with
  | PyResult.ok s1 =>
      match s1.workers with
      | none => PyResult.raised PyErr.typeError
      | some ws => PyResult.ok { (closeLoop s1 ws).1 with workers := none }
  | PyResult.raised e => PyResult.raised e
  | PyResult.blocked => PyResult.blocked

/-- The instance attribute names bound on a `FixedThreadPoolExecutor` by
`__init__` (lines 64-80).  No method ever binds any other attribute on the
executor instance. -/
def execAttrs : List String :=
  ["size", "timeout", "print_exceptions", "task_count", "_returns",
   "_exceptions", "_id_creator", "_lock", "_tasks", "_run_event", "_workers"]

/-- `stop()` (lines 109-114): its first statement is `self.run_event.set()`,
whose attribute lookup `self.run_event` precedes the call.  The lookup
succeeds only if `run_event` is an instance attribute; otherwise Python
raises `AttributeError` and neither the event set nor the worker joins run. -/
def stop (s : ExecState α) : PyResult (ExecState α) :=
  if "run_event" ∈ execAttrs then
    PyResult.ok { s with run_event_set := true }
  else
    PyResult.raised PyErr.attributeError

/-- `__enter__` (lines 205-206): returns `self`. -/
def enter (s : ExecState α) : ExecState α := s

/-- `__exit__` returns `False` (line 211), so a `with` block never suppresses
an exception raised in its body. -/
def exitReturns : Bool := false

/-- The `with FixedThreadPoolExecutor(...) as executor: body` statement
(lines 205-211): `__enter__` yields the executor to the body; on every exit
path `__exit__` runs `close()`; because `__exit__` returns `False`, a body
exception then propagates.  An exception or block inside `close()` itself
replaces the body's result, as in Python. -/
def withExec (s : ExecState α) (body : ExecState α → Outcome β × ExecState α) :
    PyResult (Outcome β × ExecState α) :=
  let (r, s1) := body (enter s)
  match close s1 with
  | PyResult.ok s2 => PyResult.ok (r, s2)
  | PyResult.raised e => PyResult.raised e
  | PyResult.blocked => PyResult.blocked

/-- Calling the `returns` property as a state transformer: the getter's body
(line 147) is a single comprehension over `self._returns` with no assignment
to any attribute. -/
def returnsOp (s : ExecState α) : List α × ExecState α :=
  (sortedValues s.returnsMap, s)

/-- Calling the `exceptions` property as a state transformer (line 155). -/
def exceptionsOp (s : ExecState α) : List PyErr × ExecState α :=
  (sortedValues s.exceptionsMap, s)

/-- Calling `raise_first()` as a state transformer (lines 157-169): read the
`exceptions` view into a local, then either raise its head or fall through;
no attribute is assigned on either path. -/
def raise_firstOp (s : ExecState α) : Outcome Unit × ExecState α :=
  let excs := sortedValues s.exceptionsMap
  match excs with
  | [] => (Outcome.ok (), s)
  | e :: _ => (Outcome.raised e, s)

/-- Submitting a batch of `n` callables (outcome of task `i` given by `os i`)
one after another, as in the spec's canonical usage loop. -/
def submitBatch (s : ExecState α) (os : Nat → Outcome α) (n : Nat) :
    ExecState α :=
  (List.range n).foldl (fun t i => submit t (os i)) s

/-- Workers completing a batch: `_execute_task` applied once per task, in the
given completion order (which may be any interleaving of the workers). -/
def runCompleted (s : ExecState α) (l : List (Nat × Outcome α)) : ExecState α :=
  l.foldl (fun t p => execute_task t p.1 p.2) s

/-- The dict entry a completed task contributes to `self._returns`. -/
def okEntry {γ : Type} (p : Nat × Outcome γ) : Option (Nat × γ) :=
  match p.2 with
  | Outcome.ok v => some (p.1, v)
  | Outcome.raised _ => none

/-- The dict entry a completed task contributes to `self._exceptions`. -/
def errEntry {γ : Type} (p : Nat × Outcome γ) : Option (Nat × PyErr) :=
  match p.2 with
  | Outcome.ok _ => none
  | Outcome.raised e => some (p.1, e)

/-- The executor state after constructing a pool, submitting `n` tasks, the
workers dequeuing all of them (emptying the queue), and completing them in the
order `l` (any interleaving of the workers). -/
def batchRun (size timeout : Nat) (pe : Bool) (os : Nat → Outcome α)
    (n : Nat) (l : List (Nat × Outcome α)) : ExecState α :=
  runCompleted { submitBatch (initExec size timeout pe) os n with tasksQ := [] } l

/-- Modelled from the spec: "return the accumulated values/errors as an
ordered sequence sorted by task id".  The stored entries themselves sorted by
ascending id; the accessors are compared against its value projection. -/
def sortEntriesById {β : Type} (m : List (Nat × β)) : List (Nat × β) :=
  List.insertionSort (fun a b => a.1 ≤ b.1) m

instance {β : Type} : IsTotal (Nat × β) (fun a b => a.1 ≤ b.1) :=
  ⟨fun a b => Nat.le_total a.1 b.1⟩

instance {β : Type} : IsTrans (Nat × β) (fun a b => a.1 ≤ b.1) :=
  ⟨fun _ _ _ => Nat.le_trans⟩

section Lemmas

variable {α β γ : Type}

/-- A successful dict lookup returns one of the stored entries. -/
theorem mem_of_lookup {m : List (Nat × β)} {k : Nat} {v : β}
    (h : List.lookup k m = some v) : (k, v) ∈ m := by
  induction m with
  | nil => simp [List.lookup] at h
  | cons p t ih =>
    obtain ⟨a, b⟩ := p
    rw [List.lookup_cons] at h
    cases hk : (k == a) with
    | true =>
      rw [hk] at h
      have hka : k = a := by simpa using hk
      have hbv : b = v := by simpa using h
      subst hka; subst hbv
      exact List.mem_cons_self _ _
    | false =>
      rw [hk] at h
      exact List.mem_cons_of_mem _ (ih h)

/-- In a dict whose keys are distinct, every stored entry is found by lookup
at its key. -/
theorem lookup_of_mem {m : List (Nat × β)} (hn : (m.map Prod.fst).Nodup)
    {k : Nat} {v : β} (h : (k, v) ∈ m) : List.lookup k m = some v := by
  induction m with
  | nil => simp at h
  | cons p t ih =>
    obtain ⟨a, b⟩ := p
    rw [List.map_cons, List.nodup_cons] at hn
    rcases List.mem_cons.mp h with h1 | h1
    · obtain ⟨hk, hv⟩ := Prod.mk.injEq k v a b ▸ h1
      subst hk; subst hv
      simp [List.lookup_cons]
    · have hka : k ≠ a := by
        intro he
        subst he
        exact hn.1 (List.mem_map.mpr ⟨(k, v), h1, rfl⟩)
      rw [List.lookup_cons]
      have : (k == a) = false := by simpa using hka
      rw [this]
      exact ih hn.2 h1

/-- Lookup in a dict with distinct keys is invariant under permutation of the
stored entries (i.e. under the completion order of the workers). -/
theorem lookup_perm {m₁ m₂ : List (Nat × β)} (hp : m₁.Perm m₂)
    (hn : (m₁.map Prod.fst).Nodup) (k : Nat) :
    List.lookup k m₁ = List.lookup k m₂ := by
  have hn₂ : (m₂.map Prod.fst).Nodup := ((hp.map Prod.fst).nodup_iff).mp hn
  cases h1 : List.lookup k m₁ with
  | some v =>
    exact (lookup_of_mem hn₂ (hp.mem_iff.mp (mem_of_lookup h1))).symm
  | none =>
    cases h2 : List.lookup k m₂ with
    | none => rfl
    | some v =>
      have : List.lookup k m₁ = some v :=
        lookup_of_mem hn (hp.mem_iff.mpr (mem_of_lookup h2))
      rw [h1] at this
      exact absurd this (by simp)

/-- The sorted key list is sorted in ascending order. -/
theorem sortedKeys_sorted (m : List (Nat × β)) :
    List.Sorted (fun a b => a ≤ b) (sortedKeys m) :=
  List.sorted_insertionSort _ _

/-- The sorted key list is a permutation of the dict's keys. -/
theorem sortedKeys_perm_keys (m : List (Nat × β)) :
    (sortedKeys m).Perm (m.map Prod.fst) :=
  List.perm_insertionSort _ _

/-- Permuting the stored entries does not change the sorted key list. -/
theorem sortedKeys_congr {m₁ m₂ : List (Nat × β)} (hp : m₁.Perm m₂) :
    sortedKeys m₁ = sortedKeys m₂ :=
  List.eq_of_perm_of_sorted
    ((sortedKeys_perm_keys m₁).trans
      ((hp.map Prod.fst).trans (sortedKeys_perm_keys m₂).symm))
    (sortedKeys_sorted m₁) (sortedKeys_sorted m₂)

/-- Looking each key of a distinct-keyed dict back up, in key order, yields
exactly the values, in the same order. -/
theorem filterMap_lookup_map_fst {l : List (Nat × β)}
    (hn : (l.map Prod.fst).Nodup) :
    (l.map Prod.fst).filterMap (fun k => List.lookup k l) = l.map Prod.snd := by
  induction l with
  | nil => rfl
  | cons p t ih =>
    obtain ⟨a, b⟩ := p
    rw [List.map_cons, List.nodup_cons] at hn
    have h1 : List.lookup a ((a, b) :: t) = some b := by simp [List.lookup_cons]
    simp only [List.map_cons, List.filterMap_cons, h1]
    congr 1
    rw [List.filterMap_congr (g := fun k => List.lookup k t) ?_]
    · exact ih hn.2
    · intro k hk
      have hka : (k == a) = false := by
        simp only [beq_eq_false_iff_ne, ne_eq]
        intro he
        exact hn.1 (he ▸ hk)
      rw [List.lookup_cons, hka]

/-- The accessor comprehension equals the value projection of the entries
sorted by ascending id: the views list the stored values by task id. -/
theorem sortedValues_eq_sortEntries {m : List (Nat × β)}
    (hn : (m.map Prod.fst).Nodup) :
    sortedValues m = (sortEntriesById m).map Prod.snd := by
  have hperm : (sortEntriesById m).Perm m := List.perm_insertionSort _ m
  have hkeysperm : ((sortEntriesById m).map Prod.fst).Perm (m.map Prod.fst) :=
    hperm.map _
  have hnodup : ((sortEntriesById m).map Prod.fst).Nodup :=
    hkeysperm.nodup_iff.mpr hn
  have hsortpairs : List.Sorted (fun a b : Nat × β => a.1 ≤ b.1)
      (sortEntriesById m) := List.sorted_insertionSort _ m
  have hsortkeys : List.Sorted (fun a b : Nat => a ≤ b)
      ((sortEntriesById m).map Prod.fst) := List.pairwise_map.mpr hsortpairs
  have hkeys : (sortEntriesById m).map Prod.fst = sortedKeys m :=
    List.eq_of_perm_of_sorted
      (hkeysperm.trans (sortedKeys_perm_keys m).symm)
      hsortkeys (sortedKeys_sorted m)
  unfold sortedValues
  rw [← hkeys,
    List.filterMap_congr (g := fun k => List.lookup k (sortEntriesById m))
      (fun k _ => (lookup_perm hperm hnodup k).symm)]
  exact filterMap_lookup_map_fst hnodup

/-- The views are invariant under permutation of the stored entries. -/
theorem sortedValues_congr {m₁ m₂ : List (Nat × β)} (hp : m₁.Perm m₂)
    (hn : (m₁.map Prod.fst).Nodup) : sortedValues m₁ = sortedValues m₂ := by
  unfold sortedValues
  rw [sortedKeys_congr hp]
  exact List.filterMap_congr (fun k _ => lookup_perm hp hn k)

/-- A filterMap by a function that succeeds on every element keeps the
length. -/
theorem length_filterMap_of_some {l : List γ} {f : γ → Option β}
    (h : ∀ a ∈ l, (f a).isSome) : (l.filterMap f).length = l.length := by
  induction l with
  | nil => rfl
  | cons a t ih =>
    rcases hf : f a with _ | b
    · exact absurd (hf ▸ h a (List.mem_cons_self a t)) (by simp)
    · rw [List.filterMap_cons, hf, List.length_cons, List.length_cons,
        ih (fun x hx => h x (List.mem_cons_of_mem a hx))]

/-- The view of a distinct-keyed dict has one element per stored entry. -/
theorem length_sortedValues {m : List (Nat × β)}
    (hn : (m.map Prod.fst).Nodup) : (sortedValues m).length = m.length := by
  unfold sortedValues
  rw [length_filterMap_of_some, (sortedKeys_perm_keys m).length_eq,
    List.length_map]
  intro k hk
  have hk' : k ∈ m.map Prod.fst := (sortedKeys_perm_keys m).mem_iff.mp hk
  obtain ⟨p, hp, hpk⟩ := List.mem_map.mp hk'
  obtain ⟨a, b⟩ := p
  cases hpk
  rw [lookup_of_mem hn hp]
  rfl

/-- Unfolding one completed task. -/
theorem runCompleted_cons (s : ExecState α) (p : Nat × Outcome α)
    (t : List (Nat × Outcome α)) :
    runCompleted s (p :: t) = runCompleted (execute_task s p.1 p.2) t := rfl

/-- Completing a batch appends to `self._returns` exactly the entries of the
successful tasks, in completion order. -/
theorem runCompleted_returnsMap (l : List (Nat × Outcome α)) (s : ExecState α) :
    (runCompleted s l).returnsMap = s.returnsMap ++ l.filterMap okEntry := by
  induction l generalizing s with
  | nil => simp [runCompleted]
  | cons p t ih =>
    obtain ⟨id, f⟩ := p
    rw [runCompleted_cons]
    cases f with
    | ok v =>
      rw [ih]
      simp [execute_task, task_done, okEntry, List.filterMap_cons]
    | raised e =>
      rw [ih]
      simp [execute_task, task_done, okEntry, List.filterMap_cons]

/-- Completing a batch appends to `self._exceptions` exactly the entries of
the failed tasks, in completion order. -/
theorem runCompleted_exceptionsMap (l : List (Nat × Outcome α))
    (s : ExecState α) :
    (runCompleted s l).exceptionsMap = s.exceptionsMap ++ l.filterMap errEntry := by
  induction l generalizing s with
  | nil => simp [runCompleted]
  | cons p t ih =>
    obtain ⟨id, f⟩ := p
    rw [runCompleted_cons]
    cases f with
    | ok v =>
      rw [ih]
      simp [execute_task, task_done, errEntry, List.filterMap_cons]
    | raised e =>
      rw [ih]
      simp [execute_task, task_done, errEntry, List.filterMap_cons]

/-- Each completed task calls `task_done` exactly once, decrementing the
pending count once per task. -/
theorem runCompleted_unfinished (l : List (Nat × Outcome α)) (s : ExecState α) :
    (runCompleted s l).unfinished = s.unfinished - l.length := by
  induction l generalizing s with
  | nil => simp [runCompleted]
  | cons p t ih =>
    obtain ⟨id, f⟩ := p
    rw [runCompleted_cons, ih]
    have hstep : (execute_task s id f).unfinished = s.unfinished - 1 := by
      cases f <;> simp [execute_task, task_done]
    rw [hstep, List.length_cons, Nat.sub_sub, Nat.add_comm]

/-- Every submitted task lands in exactly one of the two entry streams. -/
theorem length_okEntry_add_errEntry (l : List (Nat × Outcome α)) :
    (l.filterMap okEntry).length + (l.filterMap errEntry).length = l.length := by
  induction l with
  | nil => rfl
  | cons p t ih =>
    obtain ⟨id, f⟩ := p
    cases f with
    | ok v =>
      simp only [List.filterMap_cons, okEntry, errEntry, List.length_cons]
      omega
    | raised e =>
      simp only [List.filterMap_cons, okEntry, errEntry, List.length_cons]
      omega

/-- Membership in the successful-entry stream. -/
theorem mem_filterMap_okEntry {l : List (Nat × Outcome α)} {id : Nat} {v : α} :
    (id, v) ∈ l.filterMap okEntry ↔ (id, Outcome.ok v) ∈ l := by
  rw [List.mem_filterMap]
  constructor
  · rintro ⟨⟨a, f⟩, ha, hf⟩
    cases f with
    | ok w =>
      simp only [okEntry, Option.some.injEq, Prod.mk.injEq] at hf
      obtain ⟨h1, h2⟩ := hf
      subst h1; subst h2
      exact ha
    | raised e => simp [okEntry] at hf
  · intro h
    exact ⟨(id, Outcome.ok v), h, rfl⟩

/-- Membership in the failed-entry stream. -/
theorem mem_filterMap_errEntry {l : List (Nat × Outcome α)} {id : Nat}
    {e : PyErr} :
    (id, e) ∈ l.filterMap errEntry ↔ (id, Outcome.raised e) ∈ l := by
  rw [List.mem_filterMap]
  constructor
  · rintro ⟨⟨a, f⟩, ha, hf⟩
    cases f with
    | ok w => simp [errEntry] at hf
    | raised e' =>
      simp only [errEntry, Option.some.injEq, Prod.mk.injEq] at hf
      obtain ⟨h1, h2⟩ := hf
      subst h1; subst h2
      exact ha
  · intro h
    exact ⟨(id, Outcome.raised e), h, rfl⟩

/-- Submitting one more task on top of a batch. -/
theorem submitBatch_succ (s : ExecState α) (os : Nat → Outcome α) (n : Nat) :
    submitBatch s os (n + 1) = submit (submitBatch s os n) (os n) := by
  unfold submitBatch
  rw [List.range_succ, List.foldl_append]
  rfl

/-- Submissions never touch the result map. -/
theorem submitBatch_returnsMap (s : ExecState α) (os : Nat → Outcome α)
    (n : Nat) : (submitBatch s os n).returnsMap = s.returnsMap := by
  induction n with
  | zero => rfl
  | succ k ih => rw [submitBatch_succ, submit, qput]; exact ih

/-- Submissions never touch the error map. -/
theorem submitBatch_exceptionsMap (s : ExecState α) (os : Nat → Outcome α)
    (n : Nat) : (submitBatch s os n).exceptionsMap = s.exceptionsMap := by
  induction n with
  | zero => rfl
  | succ k ih => rw [submitBatch_succ, submit, qput]; exact ih

/-- Each submission's `put` increments the pending count once. -/
theorem submitBatch_unfinished (s : ExecState α) (os : Nat → Outcome α)
    (n : Nat) : (submitBatch s os n).unfinished = s.unfinished + n := by
  induction n with
  | zero => rfl
  | succ k ih => rw [submitBatch_succ, submit, qput]; simp [ih]; omega

/-- The cyanide loop's net effect on the executor state: one sentinel `put`
per live worker, each incrementing the pending count; nothing else changes
(no sentinel is ever `task_done`). -/
theorem closeLoop_fst (s : ExecState α) (ws : List Worker) :
    (closeLoop s ws).1 =
      { s with unfinished := s.unfinished + ws.countP (fun w => w.alive) } := by
  induction ws generalizing s with
  | nil => rfl
  | cons w ws ih =>
    by_cases hw : w.alive
    · have hc : (w :: ws).countP (fun w => w.alive) =
          ws.countP (fun w => w.alive) + 1 := by
        simp [List.countP_cons, hw]
      simp only [closeLoop, hw, if_true, ih, hc]
      congr 1
      omega
    · have hw' : w.alive = false := by simpa using hw
      have hc : (w :: ws).countP (fun w => w.alive) =
          ws.countP (fun w => w.alive) := by
        simp [List.countP_cons, hw']
      simp only [closeLoop, hw', if_false, Bool.false_eq_true, ih, hc]

/-- After the cyanide loop no worker is alive: the loop only returns once
`is_alive` is false. -/
theorem closeLoop_dead (s : ExecState α) (ws : List Worker) :
    ∀ w ∈ (closeLoop s ws).2, w.alive = false := by
  induction ws generalizing s with
  | nil => intro w hw; simp [closeLoop] at hw
  | cons w ws ih =>
    intro x hx
    by_cases hw : w.alive
    · simp only [closeLoop, hw, if_true] at hx
      rcases List.mem_cons.mp hx with h | h
      · subst h; rfl
      · exact ih _ _ h
    · have hw' : w.alive = false := by simpa using hw
      simp only [closeLoop, hw', Bool.false_eq_true, if_false] at hx
      rcases List.mem_cons.mp hx with h | h
      · subst h; exact hw'
      · exact ih _ _ h

/-- C1: the claim says an empty-queue dequeue timeout never terminates a
worker (it should loop again in `RUNNING`).  The code violates this: on an
empty queue `_execute_next_task`'s `except Empty: pass` falls off the end of
the method and returns `None`; in `ThreadedWorker.run` the condition
`not None or ...` is true, so the worker breaks out of its loop and the
thread terminates.  Evaluated here on a fresh single-worker executor with an
empty queue: the dequeue yields `None` and the worker's loop-exit condition
is true, i.e. the worker enters `STOPPED`. -/
theorem C1_empty_timeout_stops_worker :
    (execute_next_task (initExec 1 0 false : ExecState Nat)).1 = none ∧
    pyTruthy (execute_next_task (initExec 1 0 false : ExecState Nat)).1 = false ∧
    (workerStep (initExec 1 0 false : ExecState Nat)
      { index := 0, alive := true, keyboard_interrupted := false }).2 = true :=
  ⟨rfl, rfl, rfl⟩

/-- C2: the claim says `stop()` sets the shared stop event and then joins
every worker, returning normally.  The code violates this: `stop()`'s first
statement reads `self.run_event`, but `__init__` binds the event as
`self._run_event`, and no method ever binds `run_event` on the executor, so
the attribute lookup raises `AttributeError` before the event is set or any
worker is joined — for every executor state. -/
theorem C2_stop_raises_attributeError (s : ExecState α) :
    stop s = PyResult.raised PyErr.attributeError := by
  unfold stop
  exact if_neg (by decide)

/-- C9: calling `submit()` after `close()` does not fail fast: `submit` is a
total function that raises no misuse error; it increments the task counter,
draws the next sequence id, and appends the task tuple to the queue exactly
as before `close()`, while the worker collection stays `None` (nobody will
run the task). -/
theorem C9_submit_after_close (s s' : ExecState α) (f : Outcome α)
    (h : close s = PyResult.ok s') :
    s'.workers = none ∧
    submit s' f =
      { s' with task_count := s'.task_count + 1,
                id_creator := s'.id_creator + 1,
                tasksQ := s'.tasksQ ++ [QItem.task s'.id_creator f],
                unfinished := s'.unfinished + 1 } ∧
    (submit s' f).workers = none := by
  have hw : s'.workers = none := by
    unfold close drain at h
    by_cases hu : s.unfinished = 0
    · cases hws : s.workers with
      | none =>
        simp only [if_pos hu, hws] at h
        exact PyResult.noConfusion h
      | some ws =>
        simp only [if_pos hu, hws] at h
        cases h
        rfl
    · simp only [if_neg hu] at h
      exact PyResult.noConfusion h
  exact ⟨hw, rfl, by rw [show (submit s' f).workers = s'.workers from rfl, hw]⟩

/-- C9 witness: a concrete closed executor accepts a submission. -/
theorem C9_submit_after_close_witness :
    close (initExec 1 0 false : ExecState Nat) =
      PyResult.ok { (initExec 1 0 false : ExecState Nat) with
                      unfinished := 1, workers := none } ∧
    ({ (initExec 1 0 false : ExecState Nat) with
        unfinished := 1, workers := none } : ExecState Nat).workers = none ∧
    submit ({ (initExec 1 0 false : ExecState Nat) with
        unfinished := 1, workers := none }) (Outcome.ok 5) =
      { ({ (initExec 1 0 false : ExecState Nat) with
            unfinished := 1, workers := none }) with
          task_count := 1, id_creator := 1,
          tasksQ := [QItem.task 0 (Outcome.ok 5)], unfinished := 2 } ∧
    (submit ({ (initExec 1 0 false : ExecState Nat) with
        unfinished := 1, workers := none }) (Outcome.ok 5)).workers = none := by
  refine ⟨rfl, ?_⟩
  have := C9_submit_after_close (initExec 1 0 false : ExecState Nat)
    ({ (initExec 1 0 false : ExecState Nat) with
        unfinished := 1, workers := none }) (Outcome.ok 5) rfl
  exact this

/-- C10: reading the `returns` view, reading the `exceptions` view, and
calling `raise_first()` never mutate executor state: run as state
transformers they return the state unchanged — in particular the result map,
error map, task counter, id generator, queue and worker collection — also on
the path where `raise_first()` raises. -/
theorem C10_read_ops_frame (s : ExecState α) :
    (returnsOp s).2 = s ∧ (exceptionsOp s).2 = s ∧ (raise_firstOp s).2 = s ∧
    (raise_firstOp s).2.returnsMap = s.returnsMap ∧
    (raise_firstOp s).2.exceptionsMap = s.exceptionsMap ∧
    (raise_firstOp s).2.task_count = s.task_count ∧
    (raise_firstOp s).2.id_creator = s.id_creator ∧
    (raise_firstOp s).2.tasksQ = s.tasksQ ∧
    (raise_firstOp s).2.workers = s.workers := by
  have h2 : (raise_firstOp s).2 = s := by
    unfold raise_firstOp
    cases sortedValues s.exceptionsMap <;> rfl
  exact ⟨rfl, rfl, h2, by rw [h2], by rw [h2], by rw [h2], by rw [h2],
    by rw [h2], by rw [h2]⟩

/-- C6 counterexample: on a fresh one-worker executor, `close()` returns
normally, but reading `is_alive` afterwards does not evaluate to false as the
claim states — `self._workers` is `None` and the `for` loop over it raises
`TypeError`. -/
theorem C6_is_alive_after_close_counterexample :
    close (initExec 1 0 false : ExecState Nat) =
      PyResult.ok { (initExec 1 0 false : ExecState Nat) with
                      unfinished := 1, workers := none } ∧
    is_alive ({ (initExec 1 0 false : ExecState Nat) with
                  unfinished := 1, workers := none } : ExecState Nat) =
      PyResult.raised PyErr.typeError ∧
    is_alive ({ (initExec 1 0 false : ExecState Nat) with
                  unfinished := 1, workers := none } : ExecState Nat) ≠
      PyResult.ok false :=
  ⟨rfl, rfl, by decide⟩

/-- C6 (amended): after `close()` returns, every worker has terminated (the
cyanide loop only exits once no worker is alive) and the worker collection
has been discarded (`self._workers = None`), so the executor cannot be
reused; however, evaluating `is_alive` afterwards raises `TypeError`
(iterating `None`) rather than returning false. -/
theorem C6_close_kills_and_discards_workers (s : ExecState α)
    (ws : List Worker) (hw : s.workers = some ws) (hu : s.unfinished = 0) :
    close s = PyResult.ok { (closeLoop s ws).1 with workers := none } ∧
    (∀ w ∈ (closeLoop s ws).2, w.alive = false) ∧
    ({ (closeLoop s ws).1 with workers := none } : ExecState α).workers = none ∧
    is_alive ({ (closeLoop s ws).1 with workers := none } : ExecState α) =
      PyResult.raised PyErr.typeError := by
  refine ⟨?_, closeLoop_dead s ws, rfl, rfl⟩
  unfold close drain
  simp only [if_pos hu, hw]

/-- C6 witness: the amended statement evaluated on a fresh one-worker
executor. -/
theorem C6_close_kills_and_discards_workers_witness :
    (initExec 1 0 false : ExecState Nat).workers =
        some [{ index := 0, alive := true, keyboard_interrupted := false }] ∧
    (initExec 1 0 false : ExecState Nat).unfinished = 0 ∧
    (close (initExec 1 0 false : ExecState Nat) =
      PyResult.ok { (closeLoop (initExec 1 0 false : ExecState Nat)
          [{ index := 0, alive := true, keyboard_interrupted := false }]).1
            with workers := none } ∧
     (∀ w ∈ (closeLoop (initExec 1 0 false : ExecState Nat)
          [{ index := 0, alive := true, keyboard_interrupted := false }]).2,
        w.alive = false) ∧
     ({ (closeLoop (initExec 1 0 false : ExecState Nat)
          [{ index := 0, alive := true, keyboard_interrupted := false }]).1
            with workers := none } : ExecState Nat).workers = none ∧
     is_alive ({ (closeLoop (initExec 1 0 false : ExecState Nat)
          [{ index := 0, alive := true, keyboard_interrupted := false }]).1
            with workers := none } : ExecState Nat) =
       PyResult.raised PyErr.typeError) :=
  ⟨rfl, rfl,
    C6_close_kills_and_discards_workers (initExec 1 0 false : ExecState Nat)
      [{ index := 0, alive := true, keyboard_interrupted := false }] rfl rfl⟩

/-- C7 counterexample: sentinels are counted by the pending counter.  On a
fresh one-worker executor with no real tasks the pending count is 0; after
`close()` (which enqueues one sentinel, consumed without `task_done`) the
pending count is 1 — a sentinel incremented it and left it outstanding,
contradicting the claim that a sentinel never increments it or leaves it
outstanding. -/
theorem C7_sentinel_pending_counterexample :
    (initExec 1 0 false : ExecState Nat).unfinished = 0 ∧
    close (initExec 1 0 false : ExecState Nat) =
      PyResult.ok { (initExec 1 0 false : ExecState Nat) with
                      unfinished := 1, workers := none } ∧
    ({ (initExec 1 0 false : ExecState Nat) with
        unfinished := 1, workers := none } : ExecState Nat).unfinished ≠ 0 :=
  ⟨rfl, rfl, by decide⟩

/-- C7 (amended): each sentinel enqueued during `close()` increments the
queue's pending count (every `put` does) and no `task_done` is ever called
for a sentinel, so after `close()` the pending count is left permanently
incremented by one per consumed sentinel (one per live worker); real tasks
are decremented exactly once when marked done, and dequeuing a sentinel by
itself never changes the count. -/
theorem C7_sentinel_accounting (s : ExecState α) (ws : List Worker)
    (id : Nat) (f : Outcome α) (rest : List (QItem α))
    (hw : s.workers = some ws) (hu : s.unfinished = 0) :
    (∃ s', close s = PyResult.ok s' ∧
      s'.unfinished = ws.countP (fun w => w.alive)) ∧
    (execute_task s id f).unfinished = s.unfinished - 1 ∧
    (s.tasksQ = QItem.cyanide :: rest →
      (execute_next_task s).2.unfinished = s.unfinished) := by
  refine ⟨⟨{ (closeLoop s ws).1 with workers := none }, ?_, ?_⟩, ?_, ?_⟩
  · unfold close drain
    simp only [if_pos hu, hw]
  · show (closeLoop s ws).1.unfinished = ws.countP (fun w => w.alive)
    rw [closeLoop_fst, hu]
    simp
  · cases f <;> simp [execute_task, task_done]
  · intro hq
    simp [execute_next_task, hq]

/-- C7 witness: the amended statement evaluated on a fresh one-worker
executor whose queue head is a sentinel-free scenario instance. -/
theorem C7_sentinel_accounting_witness :
    (initExec 1 0 false : ExecState Nat).workers =
        some [{ index := 0, alive := true, keyboard_interrupted := false }] ∧
    (initExec 1 0 false : ExecState Nat).unfinished = 0 ∧
    ((∃ s', close (initExec 1 0 false : ExecState Nat) = PyResult.ok s' ∧
        s'.unfinished =
          List.countP (fun w => w.alive)
            ([{ index := 0, alive := true, keyboard_interrupted := false }] :
              List Worker)) ∧
     (execute_task (initExec 1 0 false : ExecState Nat) 0
        (Outcome.ok 5)).unfinished =
       (initExec 1 0 false : ExecState Nat).unfinished - 1 ∧
     ((initExec 1 0 false : ExecState Nat).tasksQ = QItem.cyanide :: [] →
       (execute_next_task (initExec 1 0 false : ExecState Nat)).2.unfinished =
         (initExec 1 0 false : ExecState Nat).unfinished)) :=
  ⟨rfl, rfl,
    C7_sentinel_accounting (initExec 1 0 false : ExecState Nat)
      [{ index := 0, alive := true, keyboard_interrupted := false }]
      0 (Outcome.ok 5) [] rfl rfl⟩

/-- C4: for every state of the result and error maps (with each task id
written at most once, as the executor guarantees), the `returns` and
`exceptions` accessors yield the stored values as the value projection of the
entries sorted by ascending task id — and the views are identical for any two
completion orders (permutations) of the same entries. -/
theorem C4_views_sorted_by_id (s₁ s₂ : ExecState α)
    (hnr : (s₁.returnsMap.map Prod.fst).Nodup)
    (hne : (s₁.exceptionsMap.map Prod.fst).Nodup)
    (hpr : s₁.returnsMap.Perm s₂.returnsMap)
    (hpe : s₁.exceptionsMap.Perm s₂.exceptionsMap) :
    returns s₁ = returns s₂ ∧ exceptions s₁ = exceptions s₂ ∧
    returns s₁ = (sortEntriesById s₁.returnsMap).map Prod.snd ∧
    exceptions s₁ = (sortEntriesById s₁.exceptionsMap).map Prod.snd ∧
    List.Sorted (fun a b => a.1 ≤ b.1) (sortEntriesById s₁.returnsMap) ∧
    List.Sorted (fun a b => a.1 ≤ b.1) (sortEntriesById s₁.exceptionsMap) :=
  ⟨sortedValues_congr hpr hnr, sortedValues_congr hpe hne,
   sortedValues_eq_sortEntries hnr, sortedValues_eq_sortEntries hne,
   List.sorted_insertionSort _ _, List.sorted_insertionSort _ _⟩

/-- C4 witness: two concrete executors holding the same entries recorded in
different completion orders yield identical, id-sorted views. -/
theorem C4_views_sorted_by_id_witness :
    ((({ initExec 2 0 false with
          returnsMap := [(1, 5), (0, 6)],
          exceptionsMap := [(3, PyErr.valueError 3), (2, PyErr.valueError 1)] } :
        ExecState Nat).returnsMap.map Prod.fst).Nodup ∧
     (({ initExec 2 0 false with
          returnsMap := [(1, 5), (0, 6)],
          exceptionsMap := [(3, PyErr.valueError 3), (2, PyErr.valueError 1)] } :
        ExecState Nat).exceptionsMap.map Prod.fst).Nodup) ∧
    (returns ({ initExec 2 0 false with
          returnsMap := [(1, 5), (0, 6)],
          exceptionsMap := [(3, PyErr.valueError 3), (2, PyErr.valueError 1)] } :
        ExecState Nat) =
      returns ({ initExec 2 0 false with
          returnsMap := [(0, 6), (1, 5)],
          exceptionsMap := [(2, PyErr.valueError 1), (3, PyErr.valueError 3)] } :
        ExecState Nat) ∧
     exceptions ({ initExec 2 0 false with
          returnsMap := [(1, 5), (0, 6)],
          exceptionsMap := [(3, PyErr.valueError 3), (2, PyErr.valueError 1)] } :
        ExecState Nat) =
      exceptions ({ initExec 2 0 false with
          returnsMap := [(0, 6), (1, 5)],
          exceptionsMap := [(2, PyErr.valueError 1), (3, PyErr.valueError 3)] } :
        ExecState Nat) ∧
     returns ({ initExec 2 0 false with
          returnsMap := [(1, 5), (0, 6)],
          exceptionsMap := [(3, PyErr.valueError 3), (2, PyErr.valueError 1)] } :
        ExecState Nat) =
      (sortEntriesById [(1, 5), (0, 6)]).map Prod.snd ∧
     exceptions ({ initExec 2 0 false with
          returnsMap := [(1, 5), (0, 6)],
          exceptionsMap := [(3, PyErr.valueError 3), (2, PyErr.valueError 1)] } :
        ExecState Nat) =
      (sortEntriesById [(3, PyErr.valueError 3), (2, PyErr.valueError 1)]).map
        Prod.snd ∧
     List.Sorted (fun a b => a.1 ≤ b.1)
        (sortEntriesById ([(1, 5), (0, 6)] : List (Nat × Nat))) ∧
     List.Sorted (fun a b => a.1 ≤ b.1)
        (sortEntriesById [(3, PyErr.valueError 3), (2, PyErr.valueError 1)])) :=
  ⟨⟨by decide, by decide⟩,
    C4_views_sorted_by_id
      ({ initExec 2 0 false with
          returnsMap := [(1, 5), (0, 6)],
          exceptionsMap := [(3, PyErr.valueError 3), (2, PyErr.valueError 1)] } :
        ExecState Nat)
      ({ initExec 2 0 false with
          returnsMap := [(0, 6), (1, 5)],
          exceptionsMap := [(2, PyErr.valueError 1), (3, PyErr.valueError 3)] } :
        ExecState Nat)
      (by decide) (by decide)
      (List.Perm.swap (0, 6) (1, 5) [])
      (List.Perm.swap (2, PyErr.valueError 1) (3, PyErr.valueError 3) [])⟩

/-- C5: whenever at least one task has failed, `raise_first()` raises exactly
the recorded error of the failed task with the lowest task id (the stored
entry at the minimal key of the error map), and it returns normally when no
task has failed. -/
theorem C5_raise_first_lowest_id (s : ExecState α)
    (hn : (s.exceptionsMap.map Prod.fst).Nodup) :
    (s.exceptionsMap = [] → raise_first s = Outcome.ok ()) ∧
    (s.exceptionsMap ≠ [] → ∃ k e, (k, e) ∈ s.exceptionsMap ∧
      (∀ p ∈ s.exceptionsMap, k ≤ p.1) ∧ raise_first s = Outcome.raised e) := by
  constructor
  · intro h
    simp only [raise_first, exceptions, sortedValues, sortedKeys, h]
    rfl
  · intro h
    cases hsk : sortedKeys s.exceptionsMap with
    | nil =>
      exfalso
      have hlen := (sortedKeys_perm_keys s.exceptionsMap).length_eq
      rw [hsk] at hlen
      simp only [List.length_nil, List.length_map] at hlen
      exact h (List.length_eq_zero.mp hlen.symm)
    | cons k ks =>
      have hkmem : k ∈ s.exceptionsMap.map Prod.fst :=
        (sortedKeys_perm_keys s.exceptionsMap).mem_iff.mp
          (hsk ▸ List.mem_cons_self k ks)
      obtain ⟨p, hp, hpk⟩ := List.mem_map.mp hkmem
      obtain ⟨a, e⟩ := p
      cases hpk
      have hlook : List.lookup a s.exceptionsMap = some e := lookup_of_mem hn hp
      refine ⟨a, e, hp, ?_, ?_⟩
      · intro q hq
        have hqmem : q.1 ∈ sortedKeys s.exceptionsMap :=
          (sortedKeys_perm_keys _).mem_iff.mpr (List.mem_map.mpr ⟨q, hq, rfl⟩)
        rw [hsk] at hqmem
        rcases List.mem_cons.mp hqmem with h1 | h1
        · rw [h1]
        · have hs := sortedKeys_sorted s.exceptionsMap
          rw [hsk, List.sorted_cons] at hs
          exact hs.1 _ h1
      · simp only [raise_first, exceptions, sortedValues, hsk,
          List.filterMap_cons, hlook]

/-- C5 witness: with failures recorded at ids 2 and 1 (completion order),
`raise_first()` raises the error recorded for id 1. -/
theorem C5_raise_first_lowest_id_witness :
    ((({ initExec 1 0 false with
          exceptionsMap := [(2, PyErr.valueError 9), (1, PyErr.valueError 4)] } :
        ExecState Nat).exceptionsMap.map Prod.fst).Nodup) ∧
    ((({ initExec 1 0 false with
          exceptionsMap := [(2, PyErr.valueError 9), (1, PyErr.valueError 4)] } :
        ExecState Nat).exceptionsMap = [] →
      raise_first ({ initExec 1 0 false with
          exceptionsMap := [(2, PyErr.valueError 9), (1, PyErr.valueError 4)] } :
        ExecState Nat) = Outcome.ok ()) ∧
     (({ initExec 1 0 false with
          exceptionsMap := [(2, PyErr.valueError 9), (1, PyErr.valueError 4)] } :
        ExecState Nat).exceptionsMap ≠ [] →
      ∃ k e, (k, e) ∈ ({ initExec 1 0 false with
          exceptionsMap := [(2, PyErr.valueError 9), (1, PyErr.valueError 4)] } :
        ExecState Nat).exceptionsMap ∧
        (∀ p ∈ ({ initExec 1 0 false with
            exceptionsMap := [(2, PyErr.valueError 9), (1, PyErr.valueError 4)] } :
          ExecState Nat).exceptionsMap, k ≤ p.1) ∧
        raise_first ({ initExec 1 0 false with
            exceptionsMap := [(2, PyErr.valueError 9), (1, PyErr.valueError 4)] } :
          ExecState Nat) = Outcome.raised e)) :=
  ⟨by decide,
    C5_raise_first_lowest_id
      ({ initExec 1 0 false with
          exceptionsMap := [(2, PyErr.valueError 9), (1, PyErr.valueError 4)] } :
        ExecState Nat) (by decide)⟩

/-- C8: using the executor as a scoped resource, entering the scope returns
the executor itself; on every exit path — the body returning a value or the
body raising — `__exit__` runs `close()` on the post-body state, and because
`__exit__` returns `False` the body's outcome (value or propagating
exception) is preserved unchanged, never suppressed. -/
theorem C8_with_scope_closes_and_propagates (s : ExecState α)
    (body : ExecState α → Outcome β × ExecState α) (s₂ : ExecState α)
    (hc : close (body s).2 = PyResult.ok s₂) :
    enter s = s ∧ exitReturns = false ∧
    withExec s body = PyResult.ok ((body s).1, s₂) := by
  refine ⟨rfl, rfl, ?_⟩
  unfold withExec enter
  rcases hb : body s with ⟨r, s1⟩
  rw [hb] at hc
  simp only [hb, hc]

/-- C8 witness: a body that raises, run in a scope on a fresh one-worker
executor: the scope closes the executor and the body's exception is
preserved. -/
theorem C8_with_scope_closes_and_propagates_witness :
    close ((fun t : ExecState Nat =>
        ((Outcome.raised (PyErr.valueError 3) : Outcome Nat), t))
          (initExec 1 0 false)).2 =
      PyResult.ok ({ initExec 1 0 false with
          unfinished := 1, workers := none } : ExecState Nat) ∧
    (enter (initExec 1 0 false : ExecState Nat) = initExec 1 0 false ∧
     exitReturns = false ∧
     withExec (initExec 1 0 false : ExecState Nat)
        (fun t => ((Outcome.raised (PyErr.valueError 3) : Outcome Nat), t)) =
      PyResult.ok
        (((fun t : ExecState Nat =>
            ((Outcome.raised (PyErr.valueError 3) : Outcome Nat), t))
              (initExec 1 0 false)).1,
         ({ initExec 1 0 false with
             unfinished := 1, workers := none } : ExecState Nat))) :=
  ⟨rfl,
    C8_with_scope_closes_and_propagates (initExec 1 0 false : ExecState Nat)
      (fun t => ((Outcome.raised (PyErr.valueError 3) : Outcome Nat), t))
      ({ initExec 1 0 false with unfinished := 1, workers := none } :
        ExecState Nat) rfl⟩

/-- C3: for every batch of `n` tasks submitted before a `drain()` and then
completed by the workers in any order `l`, `drain()` returns (the pending
count is zero), the sizes of the two views sum to `n`, and every task id in
`[0, n)` is present in exactly one of the result map and the error map —
never both and never neither. -/
theorem C3_drain_partition (size timeout n : Nat) (pe : Bool)
    (os : Nat → Outcome α) (l : List (Nat × Outcome α))
    (hl : l.Perm ((List.range n).map fun i => (i, os i))) :
    drain (batchRun size timeout pe os n l) =
      PyResult.ok (batchRun size timeout pe os n l) ∧
    (returns (batchRun size timeout pe os n l)).length +
      (exceptions (batchRun size timeout pe os n l)).length = n ∧
    ∀ id, id < n →
      ((∃ v, (id, v) ∈ (batchRun size timeout pe os n l).returnsMap) ∧
        ¬ ∃ e, (id, e) ∈ (batchRun size timeout pe os n l).exceptionsMap) ∨
      ((∃ e, (id, e) ∈ (batchRun size timeout pe os n l).exceptionsMap) ∧
        ¬ ∃ v, (id, v) ∈ (batchRun size timeout pe os n l).returnsMap) := by
  have hlen : l.length = n := by
    rw [hl.length_eq, List.length_map, List.length_range]
  have hR : (batchRun size timeout pe os n l).returnsMap =
      l.filterMap okEntry := by
    unfold batchRun
    rw [runCompleted_returnsMap]
    have h0 : ({ submitBatch (initExec size timeout pe) os n with
        tasksQ := [] } : ExecState α).returnsMap =
        (submitBatch (initExec size timeout pe) os n).returnsMap := rfl
    rw [h0, submitBatch_returnsMap]
    rfl
  have hE : (batchRun size timeout pe os n l).exceptionsMap =
      l.filterMap errEntry := by
    unfold batchRun
    rw [runCompleted_exceptionsMap]
    have h0 : ({ submitBatch (initExec size timeout pe) os n with
        tasksQ := [] } : ExecState α).exceptionsMap =
        (submitBatch (initExec size timeout pe) os n).exceptionsMap := rfl
    rw [h0, submitBatch_exceptionsMap]
    rfl
  have hU : (batchRun size timeout pe os n l).unfinished = 0 := by
    unfold batchRun
    rw [runCompleted_unfinished]
    have h0 : ({ submitBatch (initExec size timeout pe) os n with
        tasksQ := [] } : ExecState α).unfinished =
        (submitBatch (initExec size timeout pe) os n).unfinished := rfl
    rw [h0, submitBatch_unfinished, hlen]
    simp [initExec]
  have hfst_ok : ∀ (a a' : Nat) (b : Nat),
      b ∈ Option.map Prod.fst (okEntry ((a, os a) : Nat × Outcome α)) →
      b ∈ Option.map Prod.fst (okEntry ((a', os a') : Nat × Outcome α)) →
      a = a' := by
    intro a a' b hb hb'
    have ha : a = b := by
      cases hos : os a with
      | ok v => rw [hos] at hb; simpa [okEntry] using hb
      | raised e => rw [hos] at hb; simp [okEntry] at hb
    have ha' : a' = b := by
      cases hos : os a' with
      | ok v => rw [hos] at hb'; simpa [okEntry] using hb'
      | raised e => rw [hos] at hb'; simp [okEntry] at hb'
    rw [ha, ha']
  have hfst_err : ∀ (a a' : Nat) (b : Nat),
      b ∈ Option.map Prod.fst (errEntry ((a, os a) : Nat × Outcome α)) →
      b ∈ Option.map Prod.fst (errEntry ((a', os a') : Nat × Outcome α)) →
      a = a' := by
    intro a a' b hb hb'
    have ha : a = b := by
      cases hos : os a with
      | ok v => rw [hos] at hb; simp [errEntry] at hb
      | raised e => rw [hos] at hb; simpa [errEntry] using hb
    have ha' : a' = b := by
      cases hos : os a' with
      | ok v => rw [hos] at hb'; simp [errEntry] at hb'
      | raised e => rw [hos] at hb'; simpa [errEntry] using hb'
    rw [ha, ha']
  have hkeys_ok : ((l.filterMap okEntry).map Prod.fst).Nodup := by
    have h1 : ((((List.range n).map fun i => (i, os i)).filterMap
        okEntry).map Prod.fst).Nodup := by
      rw [List.filterMap_map, List.map_filterMap]
      exact List.Nodup.filterMap (fun a a' b hb hb' => hfst_ok a a' b hb hb')
        (List.nodup_range n)
    exact ((hl.filterMap okEntry).map Prod.fst).nodup_iff.mpr h1
  have hkeys_err : ((l.filterMap errEntry).map Prod.fst).Nodup := by
    have h1 : ((((List.range n).map fun i => (i, os i)).filterMap
        errEntry).map Prod.fst).Nodup := by
      rw [List.filterMap_map, List.map_filterMap]
      exact List.Nodup.filterMap (fun a a' b hb hb' => hfst_err a a' b hb hb')
        (List.nodup_range n)
    exact ((hl.filterMap errEntry).map Prod.fst).nodup_iff.mpr h1
  have memR : ∀ (id : Nat) (v : α),
      ((id, v) ∈ (batchRun size timeout pe os n l).returnsMap) ↔
      (id < n ∧ os id = Outcome.ok v) := by
    intro id v
    rw [hR, mem_filterMap_okEntry, hl.mem_iff, List.mem_map]
    constructor
    · rintro ⟨i, hi, hpair⟩
      simp only [Prod.mk.injEq] at hpair
      obtain ⟨h1, h2⟩ := hpair
      subst h1
      exact ⟨List.mem_range.mp hi, h2⟩
    · rintro ⟨hid, hos⟩
      exact ⟨id, List.mem_range.mpr hid, by rw [hos]⟩
  have memE : ∀ (id : Nat) (e : PyErr),
      ((id, e) ∈ (batchRun size timeout pe os n l).exceptionsMap) ↔
      (id < n ∧ os id = Outcome.raised e) := by
    intro id e
    rw [hE, mem_filterMap_errEntry, hl.mem_iff, List.mem_map]
    constructor
    · rintro ⟨i, hi, hpair⟩
      simp only [Prod.mk.injEq] at hpair
      obtain ⟨h1, h2⟩ := hpair
      subst h1
      exact ⟨List.mem_range.mp hi, h2⟩
    · rintro ⟨hid, hos⟩
      exact ⟨id, List.mem_range.mpr hid, by rw [hos]⟩
  refine ⟨?_, ?_, ?_⟩
  · simp [drain, hU]
  · have hvR : returns (batchRun size timeout pe os n l) =
        sortedValues (l.filterMap okEntry) := by
      unfold returns
      rw [hR]
    have hvE : exceptions (batchRun size timeout pe os n l) =
        sortedValues (l.filterMap errEntry) := by
      unfold exceptions
      rw [hE]
    rw [hvR, hvE, length_sortedValues hkeys_ok, length_sortedValues hkeys_err,
      length_okEntry_add_errEntry, hlen]
  · intro id hid
    cases hos : os id with
    | ok v =>
      left
      refine ⟨⟨v, (memR id v).mpr ⟨hid, hos⟩⟩, ?_⟩
      rintro ⟨e, he⟩
      have h2 := ((memE id e).mp he).2
      rw [hos] at h2
      exact Outcome.noConfusion h2
    | raised e =>
      right
      refine ⟨⟨e, (memE id e).mpr ⟨hid, hos⟩⟩, ?_⟩
      rintro ⟨v, hv⟩
      have h2 := ((memR id v).mp hv).2
      rw [hos] at h2
      exact Outcome.noConfusion h2

/-- C3 witness: two tasks (id 0 fails, id 1 succeeds) completed in reverse
order still satisfy the drain partition. -/
theorem C3_drain_partition_witness :
    ([((1 : Nat), (Outcome.ok 3 : Outcome Nat)),
      (0, Outcome.raised (PyErr.valueError 7))].Perm
      ((List.range 2).map fun i =>
        (i, if i = 0 then Outcome.raised (PyErr.valueError 7)
            else Outcome.ok 3))) ∧
    (drain (batchRun 2 0 false
        (fun i => if i = 0 then Outcome.raised (PyErr.valueError 7)
                  else Outcome.ok 3) 2
        [((1 : Nat), (Outcome.ok 3 : Outcome Nat)),
         (0, Outcome.raised (PyErr.valueError 7))]) =
      PyResult.ok (batchRun 2 0 false
        (fun i => if i = 0 then Outcome.raised (PyErr.valueError 7)
                  else Outcome.ok 3) 2
        [((1 : Nat), (Outcome.ok 3 : Outcome Nat)),
         (0, Outcome.raised (PyErr.valueError 7))]) ∧
     (returns (batchRun 2 0 false
        (fun i => if i = 0 then Outcome.raised (PyErr.valueError 7)
                  else Outcome.ok 3) 2
        [((1 : Nat), (Outcome.ok 3 : Outcome Nat)),
         (0, Outcome.raised (PyErr.valueError 7))])).length +
       (exceptions (batchRun 2 0 false
        (fun i => if i = 0 then Outcome.raised (PyErr.valueError 7)
                  else Outcome.ok 3) 2
        [((1 : Nat), (Outcome.ok 3 : Outcome Nat)),
         (0, Outcome.raised (PyErr.valueError 7))])).length = 2 ∧
     ∀ id, id < 2 →
       ((∃ v, (id, v) ∈ (batchRun 2 0 false
          (fun i => if i = 0 then Outcome.raised (PyErr.valueError 7)
                    else Outcome.ok 3) 2
          [((1 : Nat), (Outcome.ok 3 : Outcome Nat)),
           (0, Outcome.raised (PyErr.valueError 7))]).returnsMap) ∧
         ¬ ∃ e, (id, e) ∈ (batchRun 2 0 false
          (fun i => if i = 0 then Outcome.raised (PyErr.valueError 7)
                    else Outcome.ok 3) 2
          [((1 : Nat), (Outcome.ok 3 : Outcome Nat)),
           (0, Outcome.raised (PyErr.valueError 7))]).exceptionsMap) ∨
       ((∃ e, (id, e) ∈ (batchRun 2 0 false
          (fun i => if i = 0 then Outcome.raised (PyErr.valueError 7)
                    else Outcome.ok 3) 2
          [((1 : Nat), (Outcome.ok 3 : Outcome Nat)),
           (0, Outcome.raised (PyErr.valueError 7))]).exceptionsMap) ∧
         ¬ ∃ v, (id, v) ∈ (batchRun 2 0 false
          (fun i => if i = 0 then Outcome.raised (PyErr.valueError 7)
                    else Outcome.ok 3) 2
          [((1 : Nat), (Outcome.ok 3 : Outcome Nat)),
           (0, Outcome.raised (PyErr.valueError 7))]).returnsMap)) :=
  ⟨by decide,
    C3_drain_partition 2 0 2 false
      (fun i => if i = 0 then Outcome.raised (PyErr.valueError 7)
                else Outcome.ok 3)
      [((1 : Nat), (Outcome.ok 3 : Outcome Nat)),
       (0, Outcome.raised (PyErr.valueError 7))]
      (by decide)⟩

end Lemmas

end FixedThreadPoolExecutor

end FileTree
